import Mathlib

/-!
Verification of the JSON request/response helpers in
`jackent601/cpd-goMicroServiceUtils` (file `json-comms.go`).

The file shallowly embeds the three operations of the package —
`Tools.ReadJSON`, `Tools.WriteJSON` and `Tools.ErrorJSON` — together with the
configuration struct `Tools` and the envelope struct `JSONResponse`.

The Go standard library (`encoding/json`, `http.MaxBytesReader`, the
`http.ResponseWriter` sink) is an external collaborator of the package.  It is
embedded at its boundary: the streaming decoder is represented by the outcome
of each `Decode` call (one of the distinguishable error signals the source
dispatches on), the response writer by an explicit record of headers, status,
body and the error its `Write` method would report.  Everything the Go file
itself computes — content-type gating, the effective byte ceiling, strictness
wiring, the eight-way error classification, the single-value check, header
copying, status selection and error propagation — is translated directly from
the source.
-/

/-! ## Go string helpers (package `strings`) -/

/-- Embedding of `strings.HasPrefix s pre` on the character lists of the two
strings. -/
def goHasPfx (s pre : String) : Bool :=
  pre.data.isPrefixOf s.data

/-- Embedding of `strings.TrimPrefix s pre`: removes `pre` from the front of
`s` when present, otherwise returns `s` unchanged. -/
def goTrimPfx (s pre : String) : String :=
  if goHasPfx s pre then ⟨s.data.drop pre.data.length⟩ else s

/-- Embedding of `strings.ToLower` (ASCII case folding; the content types the
source compares are ASCII). -/
def goToLower (s : String) : String :=
  ⟨s.data.map Char.toLower⟩

/-! ## Data model (`json-comms.go` lines 22-35) -/

/-- The `Tools` configuration struct (lines 22-28).  `MaxJSONSize` is a Go
`int`, embedded as `Int`. -/
structure Tools where
  MaxJSONSize : Int
  MaxXMLSize : Int
  MaxFileSize : Int
  AllowedFileTypes : List String
  AllowUnknownFields : Bool

/-- The `JSONResponse` envelope (lines 31-35).  The `Data` field is a Go
`interface\x7b\x7d` tagged `json:"data,omitempty"`; it is embedded as the JSON
serialization of the payload, `none` standing for the `nil` interface that
`omitempty` drops from the wire shape. -/
structure JSONResponse where
  Error : Bool
  Message : String
  Data : Option String

/-! ## The decoder boundary

`ReadJSON` drives a `json.Decoder` over the body wrapped by
`http.MaxBytesReader` and classifies the error of the first `Decode` call by
its kind (lines 100-131).  The distinguishable signals of the external codec
are embedded as one constructor each; errors the source only recognises by
their message string (`json: unknown field ...`, `http: request body too
large`) are carried as `other` with that exact `Error()` string, matching how
the source itself sees them. -/

/-- Outcome of one `Decode` call of the external `json.Decoder`. -/
inductive GoDecodeError where
  /-- a `*json.SyntaxError` with its `Offset` field (matched by `errors.As`) -/
  | synErr (offset : Int)
  /-- `io.ErrUnexpectedEOF` (matched by `errors.Is`) -/
  | unexpectedEOF
  /-- a `*json.UnmarshalTypeError` with its `Field` and `Offset` fields -/
  | unmarshalTypeError (field : String) (offset : Int)
  /-- `io.EOF` (matched by `errors.Is`) -/
  | eof
  /-- a `*json.InvalidUnmarshalError`; carries its `Error()` string -/
  | invalidUnmarshal (msg : String)
  /-- any other error, carried as its `Error()` string -/
  | other (msg : String)
deriving DecidableEq

/-- Go `%q` formatting of a field name (quotation; escaping of special
characters inside the name is not modelled, the claims quantify over plain
names). -/
def goQuote (s : String) : String :=
  "\"" ++ s ++ "\""

/-- The error-classification switch of `ReadJSON` (lines 101-131), translated
case for case.  `maxBytes` is the effective ceiling the source interpolates
into the body-too-large message.  The two string-matched branches (lines
119-124) test the `Error()` string and therefore live in the `other` case; the
`Error()` string of a `*json.InvalidUnmarshalError` (`json: Unmarshal(...)`)
matches neither string test, so placing its branch before them preserves the
dispatch of the source. -/
def classifyDecodeError (maxBytes : Int) (e : GoDecodeError) : String :=
  match e with
  | .synErr offset =>
      "body contains badly-formed JSON (at character " ++ toString offset ++ ")"
  | .unexpectedEOF =>
      "body contains badly-formed JSON"
  | .unmarshalTypeError field offset =>
      "body contains incorrect JSON type for field " ++ goQuote field
        ++ " at offset " ++ toString offset
  | .eof =>
      "body must not be empty"
  | .invalidUnmarshal msg =>
      "error unmarshalling json: " ++ msg
  | .other msg =>
      if goHasPfx msg "json: unknown field " then
        "body contains unknown key " ++ goTrimPfx msg "json: unknown field "
      else if msg = "http: request body too large" then
        "body must not be larger than " ++ toString maxBytes ++ " bytes"
      else
        msg

/-- An incoming request at the boundary of `ReadJSON`: the declared
content-type (`""` when the header is absent, as `r.Header.Get` reports it)
and the behaviour of the external codec on the body.  `decodeFirst strict cap`
is the outcome of the first `dec.Decode(data)` call and `decodeSecond strict
cap` the outcome of the subsequent `dec.Decode(&struct\x7b\x7d\x7b\x7d)` call,
for a decoder with `DisallowUnknownFields` active iff `strict`, reading the
body through `http.MaxBytesReader` with limit `cap`; `none` is a successful
decode. -/
structure Request where
  contentType : String
  decodeFirst : Bool → Int → Option GoDecodeError
  decodeSecond : Bool → Int → Option GoDecodeError

/-- Lines 82-88: a default ceiling of one megabyte, overridden by a non-zero
`MaxJSONSize`. -/
def Tools.maxBytes (t : Tools) : Int :=
  if t.MaxJSONSize ≠ 0 then t.MaxJSONSize else 1024 * 1024

/-- `ReadJSON` (lines 71-140).  Returns `none` on success and `some msg` for
the error with message `msg`.  Steps, in source order: reject a declared
content-type that is not (case-insensitively) `application/json`; wrap the
body with the ceiling `t.maxBytes`; disallow unknown fields unless
`AllowUnknownFields`; decode one value and classify any failure; decode a
second value and require `io.EOF`. -/
def Tools.ReadJSON (t : Tools) (r : Request) : Option String :=
  if r.contentType ≠ "" ∧ goToLower r.contentType ≠ "application/json" then
    some "the Content-Type header is not application/json"
  else
    match r.decodeFirst (!t.AllowUnknownFields) t.maxBytes with
    | some e => some (classifyDecodeError t.maxBytes e)
    | none =>
      match r.decodeSecond (!t.AllowUnknownFields) t.maxBytes with
      | some GoDecodeError.eof => none
      | _ => some "body must only contain a single JSON value"

/-! ## The response-writer boundary

`WriteJSON` and `ErrorJSON` talk to an `http.ResponseWriter`: a header map, a
status line written once, and a byte sink whose `Write` may report a transport
error.  The writer is embedded as an explicit record; `writeErr` is the error
its `Write` method would report (the transport failing), which the source
discards. -/

/-- A Go `http.Header` (`map[string][]string`), embedded as an association
list. -/
abbrev GoHeader : Type := List (String × List String)

/-- Direct map assignment `h[key] = value`, as the source performs while
copying a caller-supplied header set (line 152). -/
def headerSet (h : GoHeader) (key : String) (value : List String) : GoHeader :=
  (key, value) :: List.filter (fun kv => kv.1 ≠ key) h

/-- Header lookup: the list of values stored under `key` (empty when the key
is absent). -/
def headerGet (h : GoHeader) (key : String) : List String :=
  match List.find? (fun kv => kv.1 = key) h with
  | some kv => kv.2
  | none => []

/-- The state of an `http.ResponseWriter`: accumulated headers, the status
code once `WriteHeader` ran, the body bytes written so far, and the error the
transport would report from `Write`. -/
structure ResponseWriter where
  header : GoHeader
  status : Option Int
  body : String
  writeErr : Option String

/-- `w.WriteHeader(status)`: records the status; a second call is a no-op, as
in `net/http`. -/
def ResponseWriter.writeHeader (w : ResponseWriter) (status : Int) : ResponseWriter :=
  match w.status with
  | some _ => w
  | none => { w with status := some status }

/-- `w.Write(out)`: appends the bytes and reports the transport error, if
any. -/
def ResponseWriter.write (w : ResponseWriter) (out : String) : ResponseWriter × Option String :=
  match w.writeErr with
  | some e => (w, some e)
  | none => ({ w with body := w.body ++ out }, none)

/-- `WriteJSON` (lines 143-162).  The external `json.Marshal` is supplied at
the boundary as `marshal`; the variadic `headers ...http.Header` parameter is
a list of which only a non-empty head is consulted (line 150).  Source order:
marshal, returning the failure untouched; copy the first header set pair by
pair; set `Content-Type`; write the status; write the body, discarding the
result of `Write`; return `nil`. -/
def Tools.WriteJSON {α : Type} (_t : Tools) (marshal : α → Except String String)
    (w : ResponseWriter) (status : Int) (data : α) (headers : List GoHeader) :
    ResponseWriter × Option String :=
  match marshal data with
  | .error e => (w, some e)
  | .ok out =>
    let w1 : ResponseWriter :=
      match headers with
      | [] => w
      | h :: _ => { w with header := List.foldl (fun acc kv => headerSet acc kv.1 kv.2) w.header h }
    let w2 : ResponseWriter := { w1 with header := headerSet w1.header "Content-Type" ["application/json"] }
    let w3 : ResponseWriter := w2.writeHeader status
    ((w3.write out).1, none)

/-- JSON string escaping of one character as `encoding/json` performs it for
the quote and backslash (control characters and the HTML escapes are not
modelled; the claims quantify over plain messages). -/
def jsonEscapeChar (c : Char) : String :=
  if c = '"' then "\\\"" else if c = '\\' then "\\\\" else String.singleton c

/-- JSON quotation of a string value. -/
def jsonQuote (s : String) : String :=
  "\"" ++ String.join (List.map jsonEscapeChar s.data) ++ "\""

/-- The external `json.Marshal` applied to a `JSONResponse` value, following
the struct tags on lines 32-34: keys `error`, `message` and `data`, the last
dropped by `omitempty` when the interface is `nil`. -/
def marshalJSONResponse (r : JSONResponse) : String :=
  "\x7b\"error\":" ++ (if r.Error then "true" else "false")
    ++ ",\"message\":" ++ jsonQuote r.Message
    ++ (match r.Data with
        | none => ""
        | some d => ",\"data\":" ++ d)
    ++ "\x7d"

/-- `marshalJSONResponse` as the `Except`-valued marshaller `WriteJSON`
expects; marshalling the envelope never fails (its fields are a `bool`, a
`string` and a `nil`-able interface). -/
def marshalJSONResponseE (r : JSONResponse) : Except String String :=
  Except.ok (marshalJSONResponse r)

/-- `ErrorJSON` (lines 166-179).  The Go error argument is embedded as its
`Error()` string `errMsg`; the variadic optional status is a list of which
only a non-empty head is consulted (line 170).  Source order: default the
status to 400 (`http.StatusBadRequest`), override it with the first supplied
code, build the envelope with `Error = true`, `Message = errMsg` and the
`Data` interface left `nil`, and delegate to `WriteJSON`, returning its
result. -/
def Tools.ErrorJSON (t : Tools) (w : ResponseWriter) (errMsg : String) (status : List Int) :
    ResponseWriter × Option String :=
  let statusCode : Int := 400
  let statusCode : Int :=
    match status with
    | [] => statusCode
    | s :: _ => s
  let payload : JSONResponse := { Error := true, Message := errMsg, Data := none }
  t.WriteJSON marshalJSONResponseE w statusCode payload []

/-! ## Helper lemmas -/

theorem stringDataAppend (s t : String) : (s ++ t).data = s.data ++ t.data := by
  cases s
  cases t
  rfl

theorem stringAppendNil (s : String) : s ++ "" = s := by
  cases s
  show String.mk (_ ++ []) = _
  rw [List.append_nil]

theorem stringEmptyAppend (s : String) : "" ++ s = s := by
  cases s
  rfl

theorem listPrefixOfAppendSelf {α : Type} [DecidableEq α] (l m : List α) :
    List.isPrefixOf l (l ++ m) = true := by
  induction l with
  | nil => cases m <;> rfl
  | cons a l ih => simp [ List.isPrefixOf, ih]

theorem goHasPfxAppend (pre s : String) : goHasPfx (pre ++ s) pre = true := by
  unfold goHasPfx
  rw [stringDataAppend]
  exact listPrefixOfAppendSelf pre.data s.data

theorem goTrimPfxAppend (pre s : String) : goTrimPfx (pre ++ s) pre = s := by
  unfold goTrimPfx
  rw [if_pos (goHasPfxAppend pre s), stringDataAppend, List.drop_left]

theorem classifyUnknownField (maxBytes : Int) (name : String) :
    classifyDecodeError maxBytes (GoDecodeError.other ("json: unknown field " ++ name))
      = "body contains unknown key " ++ name := by
  simp only [classifyDecodeError]
  rw [if_pos (goHasPfxAppend "json: unknown field " name), goTrimPfxAppend]

/-! ## Claims -/

/-- C1, counterexample.  For the body `\x7b"a":1\x7d\x7b"b":2\x7d` — first
decode succeeds, second decode succeeds instead of reporting `io.EOF` —
`ReadJSON` does fail, but its message is `body must only contain a single JSON
value` and not the `body must contain only a single JSON value` the claim
quotes (the quoted wording does not even occur inside the produced
message). -/
theorem C1_counterexample :
    Tools.ReadJSON ⟨0, 0, 0, [], false⟩
        ⟨"", fun _ _ => none, fun _ _ => none⟩
      = some "body must only contain a single JSON value"
    ∧ ("body must only contain a single JSON value" : String)
        ≠ "body must contain only a single JSON value"
    ∧ ¬ ("body must contain only a single JSON value".data
          <:+: "body must only contain a single JSON value".data) :=
  ⟨rfl, by decide, by decide⟩

/-- C1 (amended): whenever the first decode succeeds and the second decode
does not immediately report `io.EOF`, `ReadJSON` fails with the error `body
must only contain a single JSON value`; and whenever the second decode does
report `io.EOF`, `ReadJSON` returns no error (the destination was populated by
the successful first decode). -/
theorem C1_single_json_value (t : Tools) (r : Request)
    (hct : r.contentType = "" ∨ goToLower r.contentType = "application/json")
    (hfirst : r.decodeFirst (!t.AllowUnknownFields) t.maxBytes = none) :
    (r.decodeSecond (!t.AllowUnknownFields) t.maxBytes ≠ some GoDecodeError.eof →
        t.ReadJSON r = some "body must only contain a single JSON value")
    ∧ (r.decodeSecond (!t.AllowUnknownFields) t.maxBytes = some GoDecodeError.eof →
        t.ReadJSON r = none) := by
  have hcond : ¬ (r.contentType ≠ "" ∧ goToLower r.contentType ≠ "application/json") := by
    rcases hct with h | h
    · exact fun hc => hc.1 h
    · exact fun hc => hc.2 h
  constructor
  · intro hne
    unfold Tools.ReadJSON
    rw [if_neg hcond, hfirst]
    cases hsec : r.decodeSecond (!t.AllowUnknownFields) t.maxBytes with
    | none => rfl
    | some e =>
      cases e
      case eof => exact absurd hsec hne
      all_goals rfl
  · intro heof
    unfold Tools.ReadJSON
    rw [if_neg hcond, hfirst, heof]

theorem C1_single_json_value_witness :
    Tools.ReadJSON ⟨0, 0, 0, [], false⟩
        ⟨"APPLICATION/JSON", fun _ _ => none, fun _ _ => none⟩
      = some "body must only contain a single JSON value"
    ∧ Tools.ReadJSON ⟨0, 0, 0, [], false⟩
        ⟨"application/json", fun _ _ => none, fun _ _ => some GoDecodeError.eof⟩
      = none :=
  ⟨(C1_single_json_value ⟨0, 0, 0, [], false⟩
      ⟨"APPLICATION/JSON", fun _ _ => none, fun _ _ => none⟩
      (Or.inr (by decide)) rfl).1 (by decide),
   (C1_single_json_value ⟨0, 0, 0, [], false⟩
      ⟨"application/json", fun _ _ => none, fun _ _ => some GoDecodeError.eof⟩
      (Or.inr (by decide)) rfl).2 rfl⟩

/-- C2: the effective ceiling used by `ReadJSON` is `MaxJSONSize` when that is
non-zero and 1048576 (the one-megabyte default) otherwise; a body whose read
exceeds the ceiling — the wrapped stream reporting `http: request body too
large` from the decode — makes `ReadJSON` fail with the body-too-large message
carrying exactly that ceiling, whose decimal rendering occurs inside the
message. -/
theorem C2_body_too_large (t : Tools) (r : Request)
    (hct : r.contentType = "" ∨ goToLower r.contentType = "application/json")
    (hfirst : r.decodeFirst (!t.AllowUnknownFields) t.maxBytes
        = some (GoDecodeError.other "http: request body too large")) :
    t.maxBytes = (if t.MaxJSONSize ≠ 0 then t.MaxJSONSize else 1048576)
    ∧ t.ReadJSON r
        = some ("body must not be larger than " ++ toString t.maxBytes ++ " bytes")
    ∧ (toString t.maxBytes).data
        <:+: ("body must not be larger than " ++ toString t.maxBytes ++ " bytes").data := by
  have hcond : ¬ (r.contentType ≠ "" ∧ goToLower r.contentType ≠ "application/json") := by
    rcases hct with h | h
    · exact fun hc => hc.1 h
    · exact fun hc => hc.2 h
  refine ⟨by unfold Tools.maxBytes; norm_num, ?_, ?_⟩
  · unfold Tools.ReadJSON
    rw [if_neg hcond, hfirst]
    rfl
  · exact ⟨"body must not be larger than ".data, " bytes".data, by
      rw [stringDataAppend, stringDataAppend]⟩

theorem C2_body_too_large_witness :
    Tools.maxBytes ⟨10, 0, 0, [], false⟩ = 10
    ∧ Tools.ReadJSON ⟨10, 0, 0, [], false⟩
        ⟨"", fun _ _ => some (GoDecodeError.other "http: request body too large"),
          fun _ _ => none⟩
      = some "body must not be larger than 10 bytes" :=
  ⟨by decide,
   ((C2_body_too_large ⟨10, 0, 0, [], false⟩
      ⟨"", fun _ _ => some (GoDecodeError.other "http: request body too large"),
        fun _ _ => none⟩
      (Or.inl rfl) rfl).2.1).trans (by decide)⟩

/-- C3: a declared content-type that does not case-insensitively equal
`application/json` makes `ReadJSON` fail with the wrong-content-type error
whatever the body stream holds (the decode oracles are never consulted); an
absent content-type lets decoding proceed exactly as it would under the
correct header. -/
theorem C3_content_type_gate (t : Tools) (r : Request) :
    (r.contentType ≠ "" → goToLower r.contentType ≠ "application/json" →
        ∀ f g : Bool → Int → Option GoDecodeError,
          t.ReadJSON ⟨r.contentType, f, g⟩
            = some "the Content-Type header is not application/json")
    ∧ (r.contentType = "" →
        t.ReadJSON r = t.ReadJSON { r with contentType := "application/json" }) := by
  constructor
  · intro h1 h2 f g
    unfold Tools.ReadJSON
    rw [if_pos ⟨h1, h2⟩]
  · intro h0
    have hb : ¬ ((⟨"application/json", r.decodeFirst, r.decodeSecond⟩ : Request).contentType ≠ ""
        ∧ goToLower (⟨"application/json", r.decodeFirst, r.decodeSecond⟩ : Request).contentType
            ≠ "application/json") :=
      fun hc => hc.2 (show goToLower "application/json" = "application/json" by decide)
    unfold Tools.ReadJSON
    rw [if_neg (fun hc => hc.1 h0), if_neg hb]

theorem C3_content_type_gate_witness :
    Tools.ReadJSON ⟨0, 0, 0, [], false⟩
        ⟨"text/plain", fun _ _ => none, fun _ _ => some GoDecodeError.eof⟩
      = some "the Content-Type header is not application/json"
    ∧ Tools.ReadJSON ⟨0, 0, 0, [], false⟩
        ⟨"", fun _ _ => none, fun _ _ => some GoDecodeError.eof⟩
      = Tools.ReadJSON ⟨0, 0, 0, [], false⟩
        ⟨"application/json", fun _ _ => none, fun _ _ => some GoDecodeError.eof⟩ :=
  ⟨(C3_content_type_gate ⟨0, 0, 0, [], false⟩
      ⟨"text/plain", fun _ _ => none, fun _ _ => some GoDecodeError.eof⟩).1
      (by decide) (by decide) _ _,
   (C3_content_type_gate ⟨0, 0, 0, [], false⟩
      ⟨"", fun _ _ => none, fun _ _ => some GoDecodeError.eof⟩).2 rfl⟩

/-- C4: for a body the codec rejects under `DisallowUnknownFields` with the
unknown-field error for `name` while accepting it (as a single value) when
lenient, `ReadJSON` with `AllowUnknownFields = false` fails with the
unknown-key message carrying the literal field name inside it, and `ReadJSON`
with `AllowUnknownFields = true` succeeds. -/
theorem C4_unknown_fields (t : Tools) (r : Request) (name : String)
    (hct : r.contentType = "" ∨ goToLower r.contentType = "application/json")
    (hstrict : r.decodeFirst true t.maxBytes
        = some (GoDecodeError.other ("json: unknown field " ++ name)))
    (hlenient : r.decodeFirst false t.maxBytes = none)
    (hsecond : r.decodeSecond false t.maxBytes = some GoDecodeError.eof) :
    (t.AllowUnknownFields = false →
        t.ReadJSON r = some ("body contains unknown key " ++ name)
        ∧ name.data <:+: ("body contains unknown key " ++ name).data)
    ∧ (t.AllowUnknownFields = true → t.ReadJSON r = none) := by
  have hcond : ¬ (r.contentType ≠ "" ∧ goToLower r.contentType ≠ "application/json") := by
    rcases hct with h | h
    · exact fun hc => hc.1 h
    · exact fun hc => hc.2 h
  constructor
  · intro hoff
    have hb : (!t.AllowUnknownFields) = true := by rw [hoff]; rfl
    constructor
    · unfold Tools.ReadJSON
      rw [if_neg hcond, hb, hstrict]
      show some (classifyDecodeError t.maxBytes
          (GoDecodeError.other ("json: unknown field " ++ name))) = _
      rw [classifyUnknownField]
    · exact ⟨"body contains unknown key ".data, [], by
        simp only [stringDataAppend, List.append_nil]⟩
  · intro hon
    have hb : (!t.AllowUnknownFields) = false := by rw [hon]; rfl
    unfold Tools.ReadJSON
    rw [if_neg hcond, hb, hlenient, hsecond]

theorem C4_unknown_fields_witness :
    Tools.ReadJSON ⟨0, 0, 0, [], false⟩
        ⟨"", fun strict _ =>
            if strict then some (GoDecodeError.other "json: unknown field \"B\"") else none,
          fun _ _ => some GoDecodeError.eof⟩
      = some "body contains unknown key \"B\""
    ∧ Tools.ReadJSON ⟨0, 0, 0, [], true⟩
        ⟨"", fun strict _ =>
            if strict then some (GoDecodeError.other "json: unknown field \"B\"") else none,
          fun _ _ => some GoDecodeError.eof⟩
      = none :=
  ⟨(((C4_unknown_fields ⟨0, 0, 0, [], false⟩
      ⟨"", fun strict _ =>
          if strict then some (GoDecodeError.other "json: unknown field \"B\"") else none,
        fun _ _ => some GoDecodeError.eof⟩
      "\"B\"" (Or.inl rfl) (by decide) rfl rfl).1 rfl).1).trans (by decide),
   (C4_unknown_fields ⟨0, 0, 0, [], true⟩
      ⟨"", fun strict _ =>
          if strict then some (GoDecodeError.other "json: unknown field \"B\"") else none,
        fun _ _ => some GoDecodeError.eof⟩
      "\"B\"" (Or.inl rfl) (by decide) rfl rfl).2 rfl⟩

/-- C5, counterexample.  For a truncated body such as `\x7b"a":` — the decode
reporting `io.ErrUnexpectedEOF` — `ReadJSON` fails with `body contains
badly-formed JSON`; the hyphen-less phrase `badly formed JSON` the claim
quotes does not occur inside that message. -/
theorem C5_counterexample :
    Tools.ReadJSON ⟨0, 0, 0, [], false⟩
        ⟨"", fun _ _ => some GoDecodeError.unexpectedEOF, fun _ _ => none⟩
      = some "body contains badly-formed JSON"
    ∧ ¬ ("badly formed JSON".data
          <:+: "body contains badly-formed JSON".data) :=
  ⟨rfl, by decide⟩

/-- C5 (amended): an empty body — the first decode reporting `io.EOF` without
any bytes read — fails with `body must not be empty`, while a body that ends
mid-value — the first decode reporting `io.ErrUnexpectedEOF` — fails with the
fixed, offset-free message `body contains badly-formed JSON` (spelled with a
hyphen); the two messages are distinct, so the two categories never
coincide. -/
theorem C5_empty_vs_truncated (t : Tools) (re rt : Request)
    (hcte : re.contentType = "" ∨ goToLower re.contentType = "application/json")
    (hctt : rt.contentType = "" ∨ goToLower rt.contentType = "application/json")
    (hempty : re.decodeFirst (!t.AllowUnknownFields) t.maxBytes = some GoDecodeError.eof)
    (htrunc : rt.decodeFirst (!t.AllowUnknownFields) t.maxBytes
        = some GoDecodeError.unexpectedEOF) :
    t.ReadJSON re = some "body must not be empty"
    ∧ t.ReadJSON rt = some "body contains badly-formed JSON"
    ∧ ("body must not be empty" : String) ≠ "body contains badly-formed JSON" := by
  have hconde : ¬ (re.contentType ≠ "" ∧ goToLower re.contentType ≠ "application/json") := by
    rcases hcte with h | h
    · exact fun hc => hc.1 h
    · exact fun hc => hc.2 h
  have hcondt : ¬ (rt.contentType ≠ "" ∧ goToLower rt.contentType ≠ "application/json") := by
    rcases hctt with h | h
    · exact fun hc => hc.1 h
    · exact fun hc => hc.2 h
  refine ⟨?_, ?_, by decide⟩
  · unfold Tools.ReadJSON
    rw [if_neg hconde, hempty]
    rfl
  · unfold Tools.ReadJSON
    rw [if_neg hcondt, htrunc]
    rfl

theorem C5_empty_vs_truncated_witness :
    Tools.ReadJSON ⟨0, 0, 0, [], false⟩
        ⟨"", fun _ _ => some GoDecodeError.eof, fun _ _ => none⟩
      = some "body must not be empty"
    ∧ Tools.ReadJSON ⟨0, 0, 0, [], false⟩
        ⟨"application/json", fun _ _ => some GoDecodeError.unexpectedEOF, fun _ _ => none⟩
      = some "body contains badly-formed JSON" :=
  ⟨(C5_empty_vs_truncated ⟨0, 0, 0, [], false⟩
      ⟨"", fun _ _ => some GoDecodeError.eof, fun _ _ => none⟩
      ⟨"application/json", fun _ _ => some GoDecodeError.unexpectedEOF, fun _ _ => none⟩
      (Or.inl rfl) (Or.inr (by decide)) rfl rfl).1,
   (C5_empty_vs_truncated ⟨0, 0, 0, [], false⟩
      ⟨"", fun _ _ => some GoDecodeError.eof, fun _ _ => none⟩
      ⟨"application/json", fun _ _ => some GoDecodeError.unexpectedEOF, fun _ _ => none⟩
      (Or.inl rfl) (Or.inr (by decide)) rfl rfl).2.1⟩

/-- C6: a decode failing with a `*json.UnmarshalTypeError` for field `field`
at byte offset `offset` makes `ReadJSON` fail with the incorrect-JSON-type
message, inside which both the field name and the decimal offset occur. -/
theorem C6_type_mismatch (t : Tools) (r : Request) (field : String) (offset : Int)
    (hct : r.contentType = "" ∨ goToLower r.contentType = "application/json")
    (hfirst : r.decodeFirst (!t.AllowUnknownFields) t.maxBytes
        = some (GoDecodeError.unmarshalTypeError field offset)) :
    t.ReadJSON r
      = some ("body contains incorrect JSON type for field " ++ goQuote field
          ++ " at offset " ++ toString offset)
    ∧ field.data
        <:+: ("body contains incorrect JSON type for field " ++ goQuote field
            ++ " at offset " ++ toString offset).data
    ∧ (toString offset).data
        <:+: ("body contains incorrect JSON type for field " ++ goQuote field
            ++ " at offset " ++ toString offset).data := by
  have hcond : ¬ (r.contentType ≠ "" ∧ goToLower r.contentType ≠ "application/json") := by
    rcases hct with h | h
    · exact fun hc => hc.1 h
    · exact fun hc => hc.2 h
  refine ⟨?_, ?_, ?_⟩
  · unfold Tools.ReadJSON
    rw [if_neg hcond, hfirst]
    rfl
  · exact ⟨"body contains incorrect JSON type for field ".data ++ "\"".data,
      "\"".data ++ " at offset ".data ++ (toString offset).data, by
        simp only [goQuote, stringDataAppend, List.append_assoc]⟩
  · exact ⟨("body contains incorrect JSON type for field " ++ goQuote field
        ++ " at offset ").data, [], by
      simp only [goQuote, stringDataAppend, List.append_assoc, List.append_nil]⟩

theorem C6_type_mismatch_witness :
    Tools.ReadJSON ⟨0, 0, 0, [], false⟩
        ⟨"", fun _ _ => some (GoDecodeError.unmarshalTypeError "A" 5), fun _ _ => none⟩
      = some "body contains incorrect JSON type for field \"A\" at offset 5" :=
  ((C6_type_mismatch ⟨0, 0, 0, [], false⟩
      ⟨"", fun _ _ => some (GoDecodeError.unmarshalTypeError "A" 5), fun _ _ => none⟩
      "A" 5 (Or.inl rfl) rfl).1).trans (by decide)

theorem headerGetSet (h : GoHeader) (key : String) (v : List String) :
    headerGet (headerSet h key v) key = v := by
  simp [headerGet, headerSet, List.find?]

/-- C7: when serialization fails, `WriteJSON` returns that failure unchanged
and leaves the response writer exactly as it was — no header is set, no status
code is written, no body byte is emitted. -/
theorem C7_marshal_failure {α : Type} (t : Tools) (marshal : α → Except String String)
    (w : ResponseWriter) (status : Int) (data : α) (headers : List GoHeader) (e : String)
    (h : marshal data = Except.error e) :
    t.WriteJSON marshal w status data headers = (w, some e) := by
  unfold Tools.WriteJSON
  rw [h]

theorem C7_marshal_failure_witness :
    Tools.WriteJSON ⟨0, 0, 0, [], false⟩ (fun _ : Nat => Except.error "boom")
        ⟨[], none, "", none⟩ 200 7 []
      = (⟨[], none, "", none⟩, some "boom") :=
  C7_marshal_failure ⟨0, 0, 0, [], false⟩ (fun _ : Nat => Except.error "boom")
    ⟨[], none, "", none⟩ 200 7 [] "boom" rfl

/-- C8: when serialization succeeds on a fresh response writer, `WriteJSON`
writes status `S`, leaves the `Content-Type` header at `application/json`
whatever header set the caller supplied (the fixed media type is set after the
copy), and writes exactly the serialized bytes as the body, so that any
deserializer that inverts the serializer on the value recovers a value equal
to `V` from the body; the embedding is a pure function of `V`, so `V` itself
is not mutated. -/
theorem C8_write_round_trip {α : Type} (t : Tools) (marshal : α → Except String String)
    (unmarshal : String → Option α) (w : ResponseWriter) (status : Int) (data : α)
    (headers : List GoHeader) (out : String)
    (hm : marshal data = Except.ok out)
    (hround : unmarshal out = some data)
    (hfresh : w.status = none)
    (hok : w.writeErr = none)
    (hbody : w.body = "") :
    (t.WriteJSON marshal w status data headers).1.status = some status
    ∧ headerGet (t.WriteJSON marshal w status data headers).1.header "Content-Type"
        = ["application/json"]
    ∧ (t.WriteJSON marshal w status data headers).1.body = out
    ∧ unmarshal (t.WriteJSON marshal w status data headers).1.body = some data := by
  obtain ⟨hh, hst, hb, hwe⟩ := w
  dsimp only at hfresh hok hbody
  subst hfresh
  subst hok
  subst hbody
  unfold Tools.WriteJSON
  rw [hm]
  cases headers with
  | nil =>
    refine ⟨?_, ?_, ?_, ?_⟩ <;>
      simp [ResponseWriter.writeHeader, ResponseWriter.write, headerGetSet,
        hround, stringEmptyAppend]
  | cons h0 hs =>
    refine ⟨?_, ?_, ?_, ?_⟩ <;>
      simp [ResponseWriter.writeHeader, ResponseWriter.write, headerGetSet,
        hround, stringEmptyAppend]

theorem C8_write_round_trip_witness :
    (Tools.WriteJSON ⟨0, 0, 0, [], false⟩ (fun _ : Nat => Except.ok "7")
        ⟨[], none, "", none⟩ 201 7 [[("X-Custom", ["y"]), ("Content-Type", ["text/html"])]]).1.status
      = some 201
    ∧ headerGet (Tools.WriteJSON ⟨0, 0, 0, [], false⟩ (fun _ : Nat => Except.ok "7")
        ⟨[], none, "", none⟩ 201 7 [[("X-Custom", ["y"]), ("Content-Type", ["text/html"])]]).1.header
        "Content-Type"
      = ["application/json"]
    ∧ (Tools.WriteJSON ⟨0, 0, 0, [], false⟩ (fun _ : Nat => Except.ok "7")
        ⟨[], none, "", none⟩ 201 7 [[("X-Custom", ["y"]), ("Content-Type", ["text/html"])]]).1.body
      = "7"
    ∧ (fun s => if s = "7" then some (7 : Nat) else none)
        ((Tools.WriteJSON ⟨0, 0, 0, [], false⟩ (fun _ : Nat => Except.ok "7")
          ⟨[], none, "", none⟩ 201 7 [[("X-Custom", ["y"]), ("Content-Type", ["text/html"])]]).1.body)
      = some 7 :=
  C8_write_round_trip ⟨0, 0, 0, [], false⟩ (fun _ : Nat => Except.ok "7")
    (fun s => if s = "7" then some (7 : Nat) else none)
    ⟨[], none, "", none⟩ 201 7 [[("X-Custom", ["y"]), ("Content-Type", ["text/html"])]] "7"
    rfl (by decide) rfl rfl rfl

/-- C9: `ErrorJSON` builds the envelope with the failure flag `true`, the
message equal to the textual description of the error and the data payload
absent from the wire shape, then delegates to `WriteJSON` with status 400 when
no code is supplied and with exactly the supplied code otherwise, returning
whatever `WriteJSON` returns. -/
theorem C9_error_json (t : Tools) (w : ResponseWriter) (msg : String) (s : Int) (rest : List Int)
    (hfresh : w.status = none) (hok : w.writeErr = none) (hbody : w.body = "") :
    (t.ErrorJSON w msg []).1.status = some 400
    ∧ (t.ErrorJSON w msg (s :: rest)).1.status = some s
    ∧ (t.ErrorJSON w msg []).1.body = marshalJSONResponse ⟨true, msg, none⟩
    ∧ marshalJSONResponse ⟨true, msg, none⟩
        = "\x7b\"error\":true,\"message\":" ++ jsonQuote msg ++ "\x7d"
    ∧ ∀ l : List Int,
        t.ErrorJSON w msg l
          = t.WriteJSON marshalJSONResponseE w
              (match l with | [] => 400 | s0 :: _ => s0) ⟨true, msg, none⟩ [] := by
  obtain ⟨hh, hst, hb, hwe⟩ := w
  dsimp only at hfresh hok hbody
  subst hfresh
  subst hok
  subst hbody
  refine ⟨?_, ?_, ?_, ?_, ?_⟩
  · simp [Tools.ErrorJSON, Tools.WriteJSON, marshalJSONResponseE,
      ResponseWriter.writeHeader, ResponseWriter.write]
  · simp [Tools.ErrorJSON, Tools.WriteJSON, marshalJSONResponseE,
      ResponseWriter.writeHeader, ResponseWriter.write]
  · simp [Tools.ErrorJSON, Tools.WriteJSON, marshalJSONResponseE,
      ResponseWriter.writeHeader, ResponseWriter.write, stringEmptyAppend]
  · show "\x7b\"error\":" ++ "true" ++ ",\"message\":" ++ jsonQuote msg ++ "" ++ "\x7d" = _
    rw [stringAppendNil]
    have h1 : ("\x7b\"error\":" ++ "true" ++ ",\"message\":" : String)
        = "\x7b\"error\":true,\"message\":" := by decide
    rw [h1]
  · intro l
    cases l <;> rfl

theorem C9_error_json_witness :
    (Tools.ErrorJSON ⟨0, 0, 0, [], false⟩ ⟨[], none, "", none⟩ "boom" []).1.status = some 400
    ∧ (Tools.ErrorJSON ⟨0, 0, 0, [], false⟩ ⟨[], none, "", none⟩ "boom" [422]).1.status = some 422
    ∧ (Tools.ErrorJSON ⟨0, 0, 0, [], false⟩ ⟨[], none, "", none⟩ "boom" []).1.body
        = "\x7b\"error\":true,\"message\":\"boom\"\x7d" := by
  have h := C9_error_json ⟨0, 0, 0, [], false⟩ ⟨[], none, "", none⟩ "boom" 422 [] rfl rfl rfl
  exact ⟨h.1, h.2.1, (h.2.2.1).trans ((h.2.2.2.1).trans (by decide))⟩

/-- C10: whenever serialization succeeds, `WriteJSON` returns no error at all
— whatever the response sink, including one whose `Write` reports a transport
failure, the result of `Write` is discarded and the return value is `nil`. -/
theorem C10_write_ignores_sink_error {α : Type} (t : Tools) (marshal : α → Except String String)
    (w : ResponseWriter) (status : Int) (data : α) (headers : List GoHeader) (out : String)
    (hm : marshal data = Except.ok out) :
    (t.WriteJSON marshal w status data headers).2 = none := by
  unfold Tools.WriteJSON
  rw [hm]

theorem C10_write_ignores_sink_error_witness :
    (Tools.WriteJSON ⟨0, 0, 0, [], false⟩ (fun _ : Nat => Except.ok "7")
        ⟨[], none, "", some "network failure"⟩ 200 7 []).2 = none :=
  C10_write_ignores_sink_error ⟨0, 0, 0, [], false⟩ (fun _ : Nat => Except.ok "7")
    ⟨[], none, "", some "network failure"⟩ 200 7 [] "7" rfl
